import Mathlib

/-!
Verification of the example automation scripts in bruno-ibm-cloud-vpc.

The file shallowly embeds the three scripts the claims are about:
  * examples/error_handling_retry.py  (BrunoClient.request_with_retry)
  * examples/pagination_example.py    (get_pagination_cursor, paginate_list_vpcs)
  * examples/workflow_chaining.py     (VPCWorkflow: _build_steps, _resolve_placeholders,
                                       _extract_value, execute_step, execute)

External subprocess invocations (the bru CLI) are modelled by oracle functions
mapping the attempt or step index to the observed outcome; time delays are
modelled by recording the slept durations (as exact rationals) instead of
sleeping; logging is ignored.  Python truthiness tests that appear in the
sources are modelled explicitly by dedicated helper functions.
-/

/-- JSON values as produced by json.loads on the CLI stdout.  Numeric literals
are modelled as integers (no claim depends on numeric values). -/
inductive Json where
  | null
  | bool (b : Bool)
  | num (n : Int)
  | str (s : String)
  | arr (items : List Json)
  | obj (fields : List (String × Json))

/-- Python truthiness of an optional string: None and the empty string are
falsy, every other string is truthy. -/
def truthyOptStr : Option String → Bool
  | none => false
  | some s => s != ""

/-- Python truthiness of an optional integer: None and 0 are falsy. -/
def truthyOptNat : Option Nat → Bool
  | none => false
  | some n => n != 0

mutual

/-- Python repr() of a parsed-JSON value (used by str() on non-string values). -/
def pyRepr : Json → String
  | .null => "None"
  | .bool true => "True"
  | .bool false => "False"
  | .num n => toString n
  | .str s => "\x27" ++ s ++ "\x27"
  | .arr items => "[" ++ pyReprList items ++ "]"
  | .obj fields => "\x7b" ++ pyReprFields fields ++ "\x7d"

/-- Comma-separated repr of the elements of a JSON array. -/
def pyReprList : List Json → String
  | [] => ""
  | [j] => pyRepr j
  | j :: rest => pyRepr j ++ ", " ++ pyReprList rest

/-- Comma-separated repr of the entries of a JSON object. -/
def pyReprFields : List (String × Json) → String
  | [] => ""
  | [kv] => "\x27" ++ kv.1 ++ "\x27: " ++ pyRepr kv.2
  | kv :: rest => "\x27" ++ kv.1 ++ "\x27: " ++ pyRepr kv.2 ++ ", " ++ pyReprFields rest

end

/-- Python str() applied to a parsed-JSON value: strings are returned bare,
anything else falls back to its repr.  (In _extract_value the final value is
passed through str() when it is not None.) -/
def pyStr : Json → String
  | .str s => s
  | j => pyRepr j

/-- Does the character list start with the given separator? -/
def startsWithSep : List Char → List Char → Bool
  | [], _ => true
  | _ :: _, [] => false
  | p :: ps, c :: cs => p == c && startsWithSep ps cs

/-- Character-level worker for Python str.split with a non-empty separator:
scan left to right, cutting at each non-overlapping occurrence of the
separator.  The fuel argument (initialised to the length of the input, which
bounds the number of recursive calls because each call consumes at least one
character) makes the recursion structural. -/
def pySplitGo (sep : List Char) : Nat → List Char → List (List Char)
  | _, [] => [[]]
  | 0, s => [s]
  | fuel + 1, c :: cs =>
    if startsWithSep sep (c :: cs) then
      [] :: pySplitGo sep fuel (List.drop (sep.length - 1) cs)
    else
      match pySplitGo sep fuel cs with
      | [] => [[c]]
      | h :: t => (c :: h) :: t

/-- Python str.split(sep) for a non-empty separator sep: returns the maximal
list of pieces between non-overlapping occurrences of sep, keeping empty
pieces (s.split(sep) in Python). -/
def pySplit (s sep : String) : List String :=
  (pySplitGo sep.data s.data.length s.data).map (fun cs => String.mk cs)

namespace BrunoClient

/-- Constructor arguments of BrunoClient (error_handling_retry.py, lines 61-83).
Delays are exact rationals. -/
structure Config where
  env : String := "prod"
  max_retries : Nat := 3
  initial_retry_delay : ℚ := 1
  max_retry_delay : ℚ := 60
  backoff_factor : ℚ := 2

/-- The exception kinds that can escape request_with_retry, one variant per
exception class raised there (BrunoAPIError, AuthenticationError,
RateLimitError). -/
inductive BrunoError where
  | apiError (msg : String)
  | authenticationError (msg : String)
  | rateLimitError (msg : String)
deriving DecidableEq

/-- Outcome of the try block of one loop iteration of request_with_retry:
either the parsed response, or the exception the iteration raises
(subprocess.CalledProcessError, json.JSONDecodeError, AuthenticationError,
RateLimitError). -/
inductive AttemptOutcome where
  | success (resp : Json)
  | calledProcessError (stderr : String)
  | jsonDecodeError (msg : String)
  | authError (msg : String)
  | rateLimitError (msg : String)

/-- Observable result of one request_with_retry call: the returned response or
raised error, the number of executed attempts (invocations of the external
command), the list of delays slept (in order), and the number of forced
credential refreshes (calls of authenticate(force=True)). -/
structure RunResult where
  outcome : Except BrunoError Json
  invocations : Nat
  sleeps : List ℚ
  refreshes : Nat

/-- Backoff update after a slept retry:
delay = min(delay * self.backoff_factor, self.max_retry_delay)
(error_handling_retry.py, lines 248 and 274). -/
def backoffStep (cfg : Config) (delay : ℚ) : ℚ :=
  min (delay * cfg.backoff_factor) cfg.max_retry_delay

/-- The while loop of request_with_retry (lines 224-280).  `attempt i` is the
outcome of the i-th executed attempt; since retry_count is incremented exactly
once per non-returning iteration, the attempt index equals retry_count.
`forcedAuth` is the outcome of the (at most one) authenticate(force=True) call.
`fuel` is an explicit recursion bound; request_with_retry passes
max_retries + 1, which makes the fuel-exhaustion case coincide with the normal
loop exit (retry_count > max_retries, line 280). -/
def request_loop (cfg : Config) (attempt : Nat → AttemptOutcome)
    (forcedAuth : Except String Unit) :
    Nat → Nat → ℚ → List ℚ → Nat → Nat → RunResult
  | 0, _, _, sleeps, inv, ref =>
    { outcome := .error (.apiError
        ("Request failed after " ++ toString cfg.max_retries ++ " retries")),
      invocations := inv, sleeps := sleeps, refreshes := ref }
  | fuel + 1, rc, delay, sleeps, inv, ref =>
    if cfg.max_retries < rc then
      { outcome := .error (.apiError
          ("Request failed after " ++ toString cfg.max_retries ++ " retries")),
        invocations := inv, sleeps := sleeps, refreshes := ref }
    else
      match attempt rc with
      | .success resp =>
        { outcome := .ok resp, invocations := inv + 1, sleeps := sleeps, refreshes := ref }
      | .calledProcessError e =>
        if rc < cfg.max_retries then
          request_loop cfg attempt forcedAuth fuel (rc + 1) (backoffStep cfg delay)
            (sleeps ++ [delay]) (inv + 1) ref
        else
          { outcome := .error (.apiError
              ("Request failed after " ++ toString cfg.max_retries ++ " retries: " ++ e)),
            invocations := inv + 1, sleeps := sleeps, refreshes := ref }
      | .jsonDecodeError e =>
        { outcome := .error (.apiError ("Invalid JSON response: " ++ e)),
          invocations := inv + 1, sleeps := sleeps, refreshes := ref }
      | .authError e =>
        if rc = 0 then
          match forcedAuth with
          | .error ae =>
            { outcome := .error (.authenticationError ae),
              invocations := inv + 1, sleeps := sleeps, refreshes := ref + 1 }
          | .ok _ =>
            request_loop cfg attempt forcedAuth fuel (rc + 1) delay sleeps (inv + 1) (ref + 1)
        else
          { outcome := .error (.authenticationError e),
            invocations := inv + 1, sleeps := sleeps, refreshes := ref }
      | .rateLimitError e =>
        if rc < cfg.max_retries then
          request_loop cfg attempt forcedAuth fuel (rc + 1) (backoffStep cfg delay)
            (sleeps ++ [delay]) (inv + 1) ref
        else
          { outcome := .error (.rateLimitError e),
            invocations := inv + 1, sleeps := sleeps, refreshes := ref }

/-- BrunoClient.request_with_retry (lines 194-280): first self.authenticate()
(whose outcome is `initialAuth`; an AuthenticationError there propagates with
no attempt executed), then the retry loop starting at retry_count = 0 and
delay = initial_retry_delay. -/
def request_with_retry (cfg : Config) (initialAuth : Except String Unit)
    (forcedAuth : Except String Unit) (attempt : Nat → AttemptOutcome) : RunResult :=
  match initialAuth with
  | .error e =>
    { outcome := .error (.authenticationError e), invocations := 0, sleeps := [], refreshes := 0 }
  | .ok _ =>
    request_loop cfg attempt forcedAuth (cfg.max_retries + 1) 0 cfg.initial_retry_delay [] 0 0

/-- The list of delays slept over n consecutive backoff retries when the
current delay is `delay`. -/
def sleepsFrom (cfg : Config) (delay : ℚ) : Nat → List ℚ
  | 0 => []
  | n + 1 => delay :: sleepsFrom cfg (backoffStep cfg delay) n

end BrunoClient

namespace Pagination

/-- The "next" object of a list response.  `href` models
next_link.get("href", ""): `none` stands for a next object without an href
field (the default "" is applied by get_pagination_cursor). -/
structure NextObj where
  href : Option String

/-- A successfully parsed list-VPCs response: the "vpcs" array (item contents
are irrelevant to the loop) and the optional "next" object.  A missing, null
or empty-dict "next" (all falsy in `if not next_link`) is `none`. -/
structure PageResponse where
  vpcs : List Json
  next : Option NextObj

/-- get_pagination_cursor (pagination_example.py, lines 51-78): return the
start query parameter of response.next.href
(href.split("start=")[1].split("&")[0]), or None when there is no next
object, no href, or no "start=" substring in the href ("start=" occurs in
href exactly when the split has at least two pieces). -/
def get_pagination_cursor (response : PageResponse) : Option String :=
  match response.next with
  | none => none
  | some next_link =>
    let href := next_link.href.getD ""
    if href = "" then none
    else
      match pySplit href "start=" with
      | _ :: after :: _ => some ((pySplit after "&").headD "")
      | _ => none

/-- Outcome of one run_bruno_request call in the pagination loop: the parsed
response, or one of the two exceptions that break the loop
(subprocess.CalledProcessError, json.JSONDecodeError). -/
inductive FetchOutcome where
  | ok (response : PageResponse)
  | calledProcessError (msg : String)
  | jsonDecodeError (msg : String)

/-- Observable result of a pagination run: the accumulated items and the
number of pages actually fetched (invocations of run_bruno_request). -/
structure PaginateResult where
  all_vpcs : List Json
  pages_fetched : Nat

/-- The while loop of paginate_list_vpcs (lines 103-153).  `fetch p` is the
outcome of fetching page number p (pages are numbered from 1, like page_num).
`fuel` is an explicit recursion bound; every claim is stated either for all
fuel values or with fuel large enough for the run to finish.  The guard
`if max_pages and page_num > max_pages` uses Python truthiness of max_pages;
the final `if not cursor` uses Python truthiness of the cursor string. -/
def paginate_go (fetch : Nat → FetchOutcome) (max_pages : Option Nat) :
    Nat → Nat → Nat → List Json → PaginateResult
  | 0, _, fetched, acc => { all_vpcs := acc, pages_fetched := fetched }
  | fuel + 1, page_num, fetched, acc =>
    if truthyOptNat max_pages ∧ max_pages.getD 0 < page_num then
      { all_vpcs := acc, pages_fetched := fetched }
    else
      match fetch page_num with
      | .calledProcessError _ => { all_vpcs := acc, pages_fetched := fetched + 1 }
      | .jsonDecodeError _ => { all_vpcs := acc, pages_fetched := fetched + 1 }
      | .ok response =>
        let acc2 := acc ++ response.vpcs
        let cursor := get_pagination_cursor response
        if truthyOptStr cursor then
          paginate_go fetch max_pages fuel (page_num + 1) (fetched + 1) acc2
        else
          { all_vpcs := acc2, pages_fetched := fetched + 1 }

/-- paginate_list_vpcs (lines 81-160).  `limit` is the per-page size hint: the
source only forwards it to log output, so it does not appear in the loop. -/
def paginate_list_vpcs (limit : Nat) (fetch : Nat → FetchOutcome)
    (max_pages : Option Nat) (fuel : Nat) : PaginateResult :=
  paginate_go fetch max_pages fuel 1 0 []

end Pagination

/-- Constructor state of a WorkflowStep (workflow_chaining.py, lines 25-56).
Timestamps are omitted (no claim concerns durations). -/
structure WorkflowStep where
  name : String
  description : String
  bru_file : String
  env_vars : List (String × String)
  extract_id_key : Option String := none
  result : Option Json := none
  extracted_id : Option String := none
  status : String := "pending"
  error : Option String := none

namespace VPCWorkflow

/-- Constructor arguments of VPCWorkflow (lines 78-121). -/
structure Config where
  vpc_name : String
  subnet_name : String
  sg_name : String
  instance_name : String
  zone_name : String := "us-south-1"
  subnet_ip_count : Nat := 256
  instance_profile : String := "cx2-2x4"
  image_id : Option String := none
  ssh_key_id : Option String := none
  resource_group_id : Option String := none
  env : String := "prod"
  create_floating_ip : Bool := true

/-- The captured resource identifiers of the workflow object
(lines 130-136), all initially None. -/
structure Ids where
  vpc_id : Option String := none
  subnet_id : Option String := none
  sg_id : Option String := none
  instance_id : Option String := none
  floating_ip_id : Option String := none
  floating_ip_address : Option String := none

/-- The walk of _extract_value (lines 201-208): follow the keys through nested
dicts; return None as soon as a key is missing or the current value is not a
dict. -/
def extract_walk : Json → List String → Option Json
  | current, [] => some current
  | current, key :: rest =>
    match current with
    | .obj fields =>
      match fields.lookup key with
      | some v => extract_walk v rest
      | none => none
    | _ => none

/-- VPCWorkflow._extract_value (lines 185-210): split the key path on dots,
walk the response, and return str(current) unless the walk failed or landed on
None. -/
def _extract_value (data : Json) (key_path : String) : Option String :=
  match extract_walk data (pySplit key_path ".") with
  | none => none
  | some current =>
    match current with
    | .null => none
    | v => some (pyStr v)

/-- The per-value branch of _resolve_placeholders (lines 349-359): flat
equality match against the four known placeholder tokens, guarded by Python
truthiness of the corresponding captured identifier; everything else is passed
through unchanged. -/
def resolve_one (ids : Ids) (value : String) : String :=
  if value = "${vpc_id}" ∧ truthyOptStr ids.vpc_id then ids.vpc_id.getD value
  else if value = "${subnet_id}" ∧ truthyOptStr ids.subnet_id then ids.subnet_id.getD value
  else if value = "${sg_id}" ∧ truthyOptStr ids.sg_id then ids.sg_id.getD value
  else if value = "${instance_id}" ∧ truthyOptStr ids.instance_id then ids.instance_id.getD value
  else value

/-- VPCWorkflow._resolve_placeholders (lines 338-360).  The env-var dict is an
association list (Python dicts preserve insertion order; keys are unique); the
loop rebuilds it entry by entry with resolved values. -/
def _resolve_placeholders (ids : Ids) (env_vars : List (String × String)) :
    List (String × String) :=
  env_vars.map fun kv => (kv.1, resolve_one ids kv.2)

/-- Step 1 of _build_steps (lines 216-229): create_vpc, with the optional
RESOURCE_GROUP_ID entry appended when resource_group_id is truthy. -/
def step_create_vpc (cfg : Config) : WorkflowStep :=
  { name := "create_vpc",
    description := "Create VPC \x27" ++ cfg.vpc_name ++ "\x27",
    bru_file := "vpc/create-vpc.bru",
    env_vars := [("NEW_VPC_NAME", cfg.vpc_name)] ++
      (if truthyOptStr cfg.resource_group_id then
        [("RESOURCE_GROUP_ID", cfg.resource_group_id.getD "")] else []),
    extract_id_key := some "id" }

/-- Step 2 of _build_steps (lines 231-243): create_subnet. -/
def step_create_subnet (cfg : Config) : WorkflowStep :=
  { name := "create_subnet",
    description := "Create subnet \x27" ++ cfg.subnet_name ++ "\x27 in zone " ++ cfg.zone_name,
    bru_file := "vpc/subnets/create-subnet.bru",
    env_vars := [("NEW_SUBNET_NAME", cfg.subnet_name), ("VPC_ID", "${vpc_id}"),
      ("ZONE_NAME", cfg.zone_name), ("SUBNET_IP_COUNT", toString cfg.subnet_ip_count)],
    extract_id_key := some "id" }

/-- Step 3 of _build_steps (lines 245-255): create_security_group. -/
def step_create_security_group (cfg : Config) : WorkflowStep :=
  { name := "create_security_group",
    description := "Create security group \x27" ++ cfg.sg_name ++ "\x27",
    bru_file := "vpc/security-groups/create-security-group.bru",
    env_vars := [("NEW_SG_NAME", cfg.sg_name), ("VPC_ID", "${vpc_id}")],
    extract_id_key := some "id" }

/-- Step 4 of _build_steps (lines 257-267): add_ssh_rule. -/
def step_add_ssh_rule : WorkflowStep :=
  { name := "add_ssh_rule",
    description := "Add SSH inbound rule (port 22)",
    bru_file := "vpc/security-groups/add-rule-ssh.bru",
    env_vars := [("SECURITY_GROUP_ID", "${sg_id}"), ("SSH_SOURCE_CIDR", "0.0.0.0/0")],
    extract_id_key := some "id" }

/-- Step 5 of _build_steps (lines 269-278): add_http_rule. -/
def step_add_http_rule : WorkflowStep :=
  { name := "add_http_rule",
    description := "Add HTTP inbound rule (port 80)",
    bru_file := "vpc/security-groups/add-rule-http.bru",
    env_vars := [("SECURITY_GROUP_ID", "${sg_id}")],
    extract_id_key := some "id" }

/-- Step 6 of _build_steps (lines 280-289): add_https_rule. -/
def step_add_https_rule : WorkflowStep :=
  { name := "add_https_rule",
    description := "Add HTTPS inbound rule (port 443)",
    bru_file := "vpc/security-groups/add-rule-https.bru",
    env_vars := [("SECURITY_GROUP_ID", "${sg_id}")],
    extract_id_key := some "id" }

/-- Step 7 of _build_steps (lines 291-300): add_outbound_rule. -/
def step_add_outbound_rule : WorkflowStep :=
  { name := "add_outbound_rule",
    description := "Add outbound all rule",
    bru_file := "vpc/security-groups/add-rule-outbound-all.bru",
    env_vars := [("SECURITY_GROUP_ID", "${sg_id}")],
    extract_id_key := some "id" }

/-- Step 8 of _build_steps (lines 302-323): create_instance (only built after
the image_id / ssh_key_id precondition checks pass). -/
def step_create_instance (cfg : Config) : WorkflowStep :=
  { name := "create_instance",
    description := "Create instance \x27" ++ cfg.instance_name ++ "\x27 with profile "
      ++ cfg.instance_profile,
    bru_file := "vpc/instances/create-instance.bru",
    env_vars := [("NEW_INSTANCE_NAME", cfg.instance_name), ("VPC_ID", "${vpc_id}"),
      ("ZONE_NAME", cfg.zone_name), ("PROFILE_NAME", cfg.instance_profile),
      ("IMAGE_ID", cfg.image_id.getD ""), ("SUBNET_ID", "${subnet_id}"),
      ("SECURITY_GROUP_ID", "${sg_id}"), ("SSH_KEY_ID", cfg.ssh_key_id.getD "")],
    extract_id_key := some "id" }

/-- Step 9 of _build_steps (lines 325-336): create_floating_ip (appended only
when create_floating_ip is set). -/
def step_create_floating_ip (cfg : Config) : WorkflowStep :=
  { name := "create_floating_ip",
    description := "Create floating IP for external access",
    bru_file := "vpc/floating-ips/create-floating-ip.bru",
    env_vars := [("NEW_FIP_NAME", cfg.instance_name ++ "-fip"), ("ZONE_NAME", cfg.zone_name)],
    extract_id_key := some "id" }

/-- The first seven steps, appended to self.steps before the image_id /
ssh_key_id checks run (lines 214-300). -/
def steps_before_check (cfg : Config) : List WorkflowStep :=
  [step_create_vpc cfg, step_create_subnet cfg, step_create_security_group cfg,
   step_add_ssh_rule, step_add_http_rule, step_add_https_rule, step_add_outbound_rule]

/-- VPCWorkflow._build_steps (lines 212-336).  The second component models the
ValueError raised by the image_id / ssh_key_id precondition checks (Python
truthiness: None and "" both fail the check); on a raise, self.steps retains
the seven steps already appended.  Both checks precede the construction of
step 8, and step 9 is appended only when create_floating_ip is set. -/
def _build_steps (cfg : Config) : List WorkflowStep × Option String :=
  if ¬ truthyOptStr cfg.image_id then
    (steps_before_check cfg,
     some "image_id is required. Run \x27mise run instances:list-images\x27 to find an image ID")
  else if ¬ truthyOptStr cfg.ssh_key_id then
    (steps_before_check cfg,
     some ("ssh_key_id is required for Linux instances. "
       ++ "Run \x27mise run ssh-keys:list\x27 to find an SSH key ID"))
  else if cfg.create_floating_ip then
    (steps_before_check cfg ++ [step_create_instance cfg, step_create_floating_ip cfg], none)
  else
    (steps_before_check cfg ++ [step_create_instance cfg], none)

/-- Outcome of the try block of execute_step for one step: the parsed response
of _run_bruno_request, or the exception raised
(subprocess.CalledProcessError with its stderr, or any other exception). -/
inductive StepOutcome where
  | ok (response : Json)
  | calledProcessError (stderr : String)
  | exc (msg : String)

/-- Whether a step outcome is the success case. -/
def StepOutcome.isOk : StepOutcome → Bool
  | .ok _ => true
  | _ => false

/-- VPCWorkflow.execute_step (lines 362-431): on success mark the step
completed, record the response, and (when an extract key is configured and the
extracted identifier is truthy) record the identifier on the step and in the
workflow state keyed by the step name; on any exception mark the step failed
and record the error.  Returns the updated step, the updated captured
identifiers, and the boolean the method returns.  Placeholder resolution
(line 379) feeds only the external invocation, which is abstracted by the
outcome, so it does not appear here. -/
def execute_step (ids : Ids) (step : WorkflowStep) (outcome : StepOutcome) :
    WorkflowStep × Ids × Bool :=
  match outcome with
  | .calledProcessError stderr =>
    ({ step with status := "failed", error := some stderr }, ids, false)
  | .exc msg =>
    ({ step with status := "failed", error := some msg }, ids, false)
  | .ok response =>
    let step1 := { step with result := some response, status := "completed" }
    match step.extract_id_key with
    | none => (step1, ids, true)
    | some key =>
      match _extract_value response key with
      | none => (step1, ids, true)
      | some extracted_id =>
        if extracted_id = "" then (step1, ids, true)
        else
          let step2 := { step1 with extracted_id := some extracted_id }
          let ids2 :=
            if step.name = "create_vpc" then { ids with vpc_id := some extracted_id }
            else if step.name = "create_subnet" then { ids with subnet_id := some extracted_id }
            else if step.name = "create_security_group" then
              { ids with sg_id := some extracted_id }
            else if step.name = "create_instance" then
              { ids with instance_id := some extracted_id }
            else if step.name = "create_floating_ip" then
              { ids with floating_ip_id := some extracted_id,
                         floating_ip_address := _extract_value response "address" }
            else ids
          (step2, ids2, true)

/-- The step loop of execute (lines 458-473): run the remaining steps in order
(the oracle `invoke i` gives the outcome of the 0-based i-th step), stopping at
the first failure; returns the final self.steps list (processed prefix, then
the failed step, then the untouched rest), the captured identifiers, the
success flag, and the number of steps actually executed. -/
def execute_go (invoke : Nat → StepOutcome) :
    List WorkflowStep → Nat → Ids → List WorkflowStep → Nat →
    List WorkflowStep × Ids × Bool × Nat
  | [], _, ids, done, inv => (done, ids, true, inv)
  | step :: rest, i, ids, done, inv =>
    match execute_step ids step (invoke i) with
    | (step2, ids2, ok) =>
      if ok then execute_go invoke rest (i + 1) ids2 (done ++ [step2]) (inv + 1)
      else (done ++ [step2] ++ rest, ids2, false, inv + 1)

/-- Observable result of VPCWorkflow.execute: final self.steps, captured
identifiers, workflow_status, the returned boolean, and the number of steps
executed (external commands invoked). -/
structure ExecResult where
  steps : List WorkflowStep
  ids : Ids
  workflow_status : String
  success : Bool
  invocations : Nat

/-- VPCWorkflow.execute (lines 433-478): build the steps (a ValueError from
_build_steps is caught, setting workflow_status = "failed" and returning False
before any step runs), then execute them sequentially, stopping and marking
the workflow failed at the first step failure. -/
def execute (cfg : Config) (invoke : Nat → StepOutcome) : ExecResult :=
  match _build_steps cfg with
  | (steps0, some _) =>
    { steps := steps0, ids := {}, workflow_status := "failed", success := false,
      invocations := 0 }
  | (steps0, none) =>
    match execute_go invoke steps0 0 {} [] 0 with
    | (steps1, ids1, ok, inv) =>
      { steps := steps1, ids := ids1,
        workflow_status := if ok then "completed" else "failed",
        success := ok, invocations := inv }

end VPCWorkflow

/-! Concrete fixtures used to instantiate the theorems below. -/

/-- A BrunoClient with the default retry configuration (max_retries = 3,
initial delay 1s, cap 60s, factor 2). -/
def cfgDefault : BrunoClient.Config := {}

/-- A client whose initial delay exceeds the delay cap. -/
def cfgHighInitial : BrunoClient.Config :=
  { max_retries := 1, initial_retry_delay := 100, max_retry_delay := 60, backoff_factor := 2 }

/-- A client whose initial delay 70 exceeds the cap 60, so the slept delays
decrease from 70 to 60. -/
def cfgUncapped : BrunoClient.Config :=
  { max_retries := 2, initial_retry_delay := 70, max_retry_delay := 60, backoff_factor := 2 }

/-- An attempt oracle that fails with a transport error on every attempt. -/
def attemptFailBoom : Nat → BrunoClient.AttemptOutcome :=
  fun _ => .calledProcessError "boom"

/-- An attempt oracle whose first two attempts raise AuthenticationError. -/
def attemptAuthTwice : Nat → BrunoClient.AttemptOutcome := fun n =>
  if n = 0 then .authError "token expired"
  else if n = 1 then .authError "still expired"
  else .calledProcessError "boom"

/-- The next object of `pageWithNext`, holding the cursor abc123. -/
def nextAbc : Pagination.NextObj :=
  { href := some
      "https://us-south.iaas.cloud.ibm.com/v1/vpcs?start=abc123&version=2024-12-10&generation=2" }

/-- A list response carrying a continuation cursor (start=abc123). -/
def pageWithNext : Pagination.PageResponse :=
  { vpcs := [Json.obj [("id", Json.str "r006-vpc-1"), ("name", Json.str "vpc-a")]],
    next := some nextAbc }

/-- A final list response whose item count equals the page-size hint 10 but
which carries no next object. -/
def pageFullLast : Pagination.PageResponse :=
  { vpcs := List.replicate 10 (Json.obj [("id", Json.str "r006-vpc-n")]), next := none }

/-- A fetch oracle for which every page has a further continuation cursor. -/
def fetchAlwaysNext : Nat → Pagination.FetchOutcome := fun _ => .ok pageWithNext

/-- A fetch oracle with one cursor page followed by a full page with no
cursor. -/
def fetchTwoPages : Nat → Pagination.FetchOutcome := fun p =>
  if p = 1 then .ok pageWithNext else .ok pageFullLast

/-- A fully configured workflow (image and SSH key identifiers present). -/
def cfgWf : VPCWorkflow.Config :=
  { vpc_name := "demo-vpc", subnet_name := "demo-subnet", sg_name := "demo-sg",
    instance_name := "demo-instance", image_id := some "r006-img",
    ssh_key_id := some "r006-key" }

/-- The same workflow configuration with the required image_id missing. -/
def cfgWfNoImage : VPCWorkflow.Config := { cfgWf with image_id := none }

/-- A response containing a top-level id. -/
def respWithId : Json := Json.obj [("id", Json.str "r006-abc123")]

/-- A response with no id field. -/
def respNoId : Json := Json.obj [("name", Json.str "demo")]

/-- A step oracle where the third step (index 2) fails and all others
succeed. -/
def invokeFailAt2 : Nat → VPCWorkflow.StepOutcome := fun n =>
  if n = 2 then .calledProcessError "boom" else .ok respWithId

/-- A step oracle where every step succeeds. -/
def invokeAllOk : Nat → VPCWorkflow.StepOutcome := fun _ => .ok respWithId

/-- A step oracle where every step succeeds but no response carries an id. -/
def invokeAllNoId : Nat → VPCWorkflow.StepOutcome := fun _ => .ok respNoId

/-- Workflow identifier state with nothing captured. -/
def idsEmpty : VPCWorkflow.Ids := {}

/-- Workflow identifier state after only the VPC step captured an id. -/
def idsVpcOnly : VPCWorkflow.Ids := { vpc_id := some "r006-vpc" }

/-- A step-input map containing a resolvable placeholder, an unresolvable
placeholder, and a plain value. -/
def envPlaceholders : List (String × String) :=
  [("VPC_ID", "${vpc_id}"), ("SUBNET_ID", "${subnet_id}"), ("NAME", "hello")]

/-- A concrete step whose extract key is "id". -/
def stepC10 : WorkflowStep := VPCWorkflow.step_create_vpc cfgWf

/-! Theorems.  First the helper lemmas about the retry loop, then the claims. -/

namespace BrunoClient

/-- When every attempt fails with a transport error, the loop starting with
`fuel` remaining iterations performs exactly `fuel` further attempts, sleeps
the backoff sequence, performs no forced refresh, and ends in a generic
BrunoAPIError. -/
theorem request_loop_all_fail (cfg : Config) (attempt : Nat → AttemptOutcome)
    (fa : Except String Unit)
    (hfail : ∀ i, ∃ e, attempt i = .calledProcessError e) :
    ∀ fuel rc delay sleeps inv ref, rc + fuel = cfg.max_retries + 1 →
      (∃ m, (request_loop cfg attempt fa fuel rc delay sleeps inv ref).outcome
          = .error (.apiError m)) ∧
      (request_loop cfg attempt fa fuel rc delay sleeps inv ref).invocations = inv + fuel ∧
      (request_loop cfg attempt fa fuel rc delay sleeps inv ref).sleeps
          = sleeps ++ sleepsFrom cfg delay (fuel - 1) ∧
      (request_loop cfg attempt fa fuel rc delay sleeps inv ref).refreshes = ref := by
  intro fuel
  induction fuel with
  | zero =>
    intro rc delay sleeps inv ref _
    exact ⟨⟨_, rfl⟩, rfl, by simp [request_loop, sleepsFrom], rfl⟩
  | succ fuel ih =>
    intro rc delay sleeps inv ref hrc
    obtain ⟨e, he⟩ := hfail rc
    have hguard : ¬ cfg.max_retries < rc := by omega
    simp only [request_loop, if_neg hguard, he]
    by_cases hlt : rc < cfg.max_retries
    · obtain ⟨f, rfl⟩ : ∃ f, fuel = f + 1 := ⟨fuel - 1, by omega⟩
      rw [if_pos hlt]
      obtain ⟨⟨m, hm⟩, hinv, hsl, hre⟩ := ih (rc + 1) (backoffStep cfg delay)
        (sleeps ++ [delay]) (inv + 1) ref (by omega)
      refine ⟨⟨m, hm⟩, by rw [hinv]; omega, ?_, hre⟩
      rw [hsl]
      simp [sleepsFrom]
    · have hf0 : fuel = 0 := by omega
      subst hf0
      rw [if_neg hlt]
      exact ⟨⟨_, rfl⟩, by simp, by simp [sleepsFrom], rfl⟩

/-- Index k of the backoff sleep list starting from delay d is the k-fold
backoff update of d. -/
theorem sleepsFrom_getElem (cfg : Config) :
    ∀ n d k, k < n → (sleepsFrom cfg d n)[k]? = some ((backoffStep cfg)^[k] d) := by
  intro n
  induction n with
  | zero => intro d k hk; exact absurd hk (Nat.not_lt_zero k)
  | succ n ih =>
    intro d k hk
    cases k with
    | zero => simp [sleepsFrom]
    | succ k =>
      rw [sleepsFrom]
      rw [List.getElem?_cons_succ, ih _ k (by omega), Function.iterate_succ_apply]

/-- Closed form of the iterated backoff update: provided the initial delay is
nonnegative and no larger than the cap and the factor is nonnegative, the
delay before the k-th backoff sleep is min(initial * factor^k, cap). -/
theorem backoff_iterate_eq (cfg : Config) (hI0 : 0 ≤ cfg.initial_retry_delay)
    (hIM : cfg.initial_retry_delay ≤ cfg.max_retry_delay)
    (hF0 : 0 ≤ cfg.backoff_factor) :
    ∀ k, (backoffStep cfg)^[k] cfg.initial_retry_delay
      = min (cfg.initial_retry_delay * cfg.backoff_factor ^ k) cfg.max_retry_delay := by
  intro k
  induction k with
  | zero => simp [min_eq_left hIM]
  | succ k ih =>
    rw [Function.iterate_succ_apply', ih]
    unfold backoffStep
    rcases le_or_lt (cfg.initial_retry_delay * cfg.backoff_factor ^ k) cfg.max_retry_delay
      with h | h
    · rw [min_eq_left h, pow_succ, ← mul_assoc]
    · have hM0 : 0 ≤ cfg.max_retry_delay := le_trans hI0 hIM
      have hF1 : 1 ≤ cfg.backoff_factor := by
        by_contra hc
        push_neg at hc
        have hle : cfg.initial_retry_delay * cfg.backoff_factor ^ k
            ≤ cfg.initial_retry_delay * 1 :=
          mul_le_mul_of_nonneg_left (pow_le_one₀ hF0 hc.le) hI0
        rw [mul_one] at hle
        exact absurd (hle.trans hIM) (not_le.2 h)
      have h1 : cfg.max_retry_delay ≤ cfg.max_retry_delay * cfg.backoff_factor :=
        le_mul_of_one_le_right hM0 hF1
      have h2 : cfg.max_retry_delay * cfg.backoff_factor
          ≤ cfg.initial_retry_delay * cfg.backoff_factor ^ k * cfg.backoff_factor :=
        mul_le_mul_of_nonneg_right h.le hF0
      have h3 : cfg.max_retry_delay ≤ cfg.initial_retry_delay * cfg.backoff_factor ^ (k + 1) := by
        rw [pow_succ, ← mul_assoc]
        exact h1.trans h2
      rw [min_eq_right h.le, min_eq_right h1, min_eq_right h3]

/-- Appending the current delay to a sorted sleep list bounded by it keeps it
sorted. -/
theorem sorted_append_delay {l : List ℚ} {d : ℚ} (hs : l.Sorted (· ≤ ·))
    (hle : ∀ x ∈ l, x ≤ d) : (l ++ [d]).Sorted (· ≤ ·) := by
  refine List.pairwise_append.2 ⟨hs, List.sorted_singleton d, ?_⟩
  intro a ha b hb
  rw [List.mem_singleton] at hb
  subst hb
  exact hle a ha

/-- Whatever the failure pattern, when the factor is at least 1 and the
current delay is within [0, cap] and bounds the sleeps so far, the final sleep
list is sorted and capped. -/
theorem request_loop_sleeps_sorted (cfg : Config) (attempt : Nat → AttemptOutcome)
    (fa : Except String Unit) (hF : 1 ≤ cfg.backoff_factor) :
    ∀ fuel rc delay sleeps inv ref, 0 ≤ delay → delay ≤ cfg.max_retry_delay →
      sleeps.Sorted (· ≤ ·) → (∀ x ∈ sleeps, x ≤ delay) →
      (request_loop cfg attempt fa fuel rc delay sleeps inv ref).sleeps.Sorted (· ≤ ·) ∧
      ∀ x ∈ (request_loop cfg attempt fa fuel rc delay sleeps inv ref).sleeps,
        x ≤ cfg.max_retry_delay := by
  intro fuel
  induction fuel with
  | zero =>
    intro rc delay sleeps inv ref _ hdM hsort hle
    exact ⟨hsort, fun x hx => (hle x hx).trans hdM⟩
  | succ fuel ih =>
    intro rc delay sleeps inv ref hd0 hdM hsort hle
    have hkeep : sleeps.Sorted (· ≤ ·) ∧ ∀ x ∈ sleeps, x ≤ cfg.max_retry_delay :=
      ⟨hsort, fun x hx => (hle x hx).trans hdM⟩
    have hstep : delay ≤ backoffStep cfg delay :=
      le_min (le_mul_of_one_le_right hd0 hF) hdM
    have hnext : (request_loop cfg attempt fa fuel (rc + 1) (backoffStep cfg delay)
          (sleeps ++ [delay]) (inv + 1) ref).sleeps.Sorted (· ≤ ·) ∧
        ∀ x ∈ (request_loop cfg attempt fa fuel (rc + 1) (backoffStep cfg delay)
          (sleeps ++ [delay]) (inv + 1) ref).sleeps, x ≤ cfg.max_retry_delay := by
      refine ih (rc + 1) (backoffStep cfg delay) (sleeps ++ [delay]) (inv + 1) ref
        (hd0.trans hstep) (min_le_right _ _) (sorted_append_delay hsort hle) ?_
      intro x hx
      rcases List.mem_append.1 hx with hx | hx
      · exact (hle x hx).trans hstep
      · rw [List.mem_singleton] at hx
        subst hx
        exact hstep
    by_cases hguard : cfg.max_retries < rc
    · simp only [request_loop, if_pos hguard]
      exact hkeep
    · cases hA : attempt rc with
      | success r =>
        simp only [request_loop, if_neg hguard, hA]
        exact hkeep
      | calledProcessError e =>
        by_cases hlt : rc < cfg.max_retries
        · simp only [request_loop, if_neg hguard, hA, if_pos hlt]
          exact hnext
        · simp only [request_loop, if_neg hguard, hA, if_neg hlt]
          exact hkeep
      | jsonDecodeError e =>
        simp only [request_loop, if_neg hguard, hA]
        exact hkeep
      | authError e =>
        by_cases h0 : rc = 0
        · cases fa with
          | error ae =>
            simp only [request_loop, if_neg hguard, hA, if_pos h0]
            exact hkeep
          | ok u =>
            simp only [request_loop, if_neg hguard, hA, if_pos h0]
            exact ih (rc + 1) delay sleeps (inv + 1) (ref + 1) hd0 hdM hsort hle
        · simp only [request_loop, if_neg hguard, hA, if_neg h0]
          exact hkeep
      | rateLimitError e =>
        by_cases hlt : rc < cfg.max_retries
        · simp only [request_loop, if_neg hguard, hA, if_pos hlt]
          exact hnext
        · simp only [request_loop, if_neg hguard, hA, if_neg hlt]
          exact hkeep

/-- Once retry_count is positive, the branch performing a forced refresh is
unreachable, so the refresh count stays put. -/
theorem request_loop_refreshes_of_pos (cfg : Config) (attempt : Nat → AttemptOutcome)
    (fa : Except String Unit) :
    ∀ fuel rc delay sleeps inv ref, 1 ≤ rc →
      (request_loop cfg attempt fa fuel rc delay sleeps inv ref).refreshes = ref := by
  intro fuel
  induction fuel with
  | zero => intro rc delay sleeps inv ref _; rfl
  | succ fuel ih =>
    intro rc delay sleeps inv ref hrc
    by_cases hguard : cfg.max_retries < rc
    · simp only [request_loop, if_pos hguard]
    · cases hA : attempt rc with
      | success r => simp only [request_loop, if_neg hguard, hA]
      | calledProcessError e =>
        by_cases hlt : rc < cfg.max_retries
        · simp only [request_loop, if_neg hguard, hA, if_pos hlt]
          exact ih (rc + 1) _ _ _ _ (by omega)
        · simp only [request_loop, if_neg hguard, hA, if_neg hlt]
      | jsonDecodeError e => simp only [request_loop, if_neg hguard, hA]
      | authError e =>
        simp only [request_loop, if_neg hguard, hA, if_neg (by omega : ¬ rc = 0)]
      | rateLimitError e =>
        by_cases hlt : rc < cfg.max_retries
        · simp only [request_loop, if_neg hguard, hA, if_pos hlt]
          exact ih (rc + 1) _ _ _ _ (by omega)
        · simp only [request_loop, if_neg hguard, hA, if_neg hlt]

/-- The loop performs at most one forced refresh beyond those already
recorded. -/
theorem request_loop_refreshes_le (cfg : Config) (attempt : Nat → AttemptOutcome)
    (fa : Except String Unit) :
    ∀ fuel rc delay sleeps inv ref,
      (request_loop cfg attempt fa fuel rc delay sleeps inv ref).refreshes ≤ ref + 1 := by
  intro fuel
  induction fuel with
  | zero => intro rc delay sleeps inv ref; exact Nat.le_succ ref
  | succ fuel ih =>
    intro rc delay sleeps inv ref
    by_cases hguard : cfg.max_retries < rc
    · simp only [request_loop, if_pos hguard]
      exact Nat.le_succ ref
    · cases hA : attempt rc with
      | success r =>
        simp only [request_loop, if_neg hguard, hA]
        exact Nat.le_succ ref
      | calledProcessError e =>
        by_cases hlt : rc < cfg.max_retries
        · simp only [request_loop, if_neg hguard, hA, if_pos hlt]
          exact ih (rc + 1) _ _ _ _
        · simp only [request_loop, if_neg hguard, hA, if_neg hlt]
          exact Nat.le_succ ref
      | jsonDecodeError e =>
        simp only [request_loop, if_neg hguard, hA]
        exact Nat.le_succ ref
      | authError e =>
        by_cases h0 : rc = 0
        · cases fa with
          | error ae =>
            simp only [request_loop, if_neg hguard, hA, if_pos h0]
            exact le_refl _
          | ok u =>
            simp only [request_loop, if_neg hguard, hA, if_pos h0]
            rw [request_loop_refreshes_of_pos cfg attempt (.ok u) fuel (rc + 1) _ _ _ _
              (by omega)]
        · simp only [request_loop, if_neg hguard, hA, if_neg h0]
          exact Nat.le_succ ref
      | rateLimitError e =>
        by_cases hlt : rc < cfg.max_retries
        · simp only [request_loop, if_neg hguard, hA, if_pos hlt]
          exact ih (rc + 1) _ _ _ _
        · simp only [request_loop, if_neg hguard, hA, if_neg hlt]
          exact Nat.le_succ ref

end BrunoClient

open BrunoClient in
/-- C2: for every configured maximum-retry count N, a request whose external
invocation fails with a transport/process error (CalledProcessError) on every
attempt is attempted exactly N + 1 times by request_with_retry, after which a
generic BrunoAPIError is raised. -/
theorem c2_transport_failures_attempt_count (cfg : Config)
    (fa : Except String Unit) (attempt : Nat → AttemptOutcome)
    (hfail : ∀ i, ∃ e, attempt i = .calledProcessError e) :
    (request_with_retry cfg (.ok ()) fa attempt).invocations = cfg.max_retries + 1 ∧
    ∃ m, (request_with_retry cfg (.ok ()) fa attempt).outcome = .error (.apiError m) := by
  have h := request_loop_all_fail cfg attempt fa hfail (cfg.max_retries + 1) 0
    cfg.initial_retry_delay [] 0 0 (by omega)
  exact ⟨by simpa [request_with_retry] using h.2.1, by simpa [request_with_retry] using h.1⟩

open BrunoClient in
/-- Witness for C2 at the default configuration (max_retries = 3): exactly 4
attempts are made and a generic API error surfaces. -/
theorem c2_witness :
    (request_with_retry cfgDefault (.ok ()) (.ok ()) attemptFailBoom).invocations
      = cfgDefault.max_retries + 1 ∧
    ∃ m, (request_with_retry cfgDefault (.ok ()) (.ok ()) attemptFailBoom).outcome
      = .error (.apiError m) :=
  c2_transport_failures_attempt_count cfgDefault (.ok ()) attemptFailBoom
    (fun _ => ⟨"boom", rfl⟩)

open BrunoClient in
/-- C3 counterexample: the claim quantifies over every configuration, but when
initial_retry_delay (100) exceeds max_retry_delay (60), the delay slept after
failed attempt 0 is the uncapped 100, not min(100 * 2^0, 60) = 60: the first
sleep happens before the min is ever applied (lines 247-248 sleep first, then
cap). -/
theorem c3_counterexample :
    ((request_with_retry cfgHighInitial (.ok ()) (.ok ()) attemptFailBoom).sleeps)[0]?
      = some 100 ∧
    ((request_with_retry cfgHighInitial (.ok ()) (.ok ()) attemptFailBoom).sleeps)[0]?
      ≠ some (min (cfgHighInitial.initial_retry_delay * cfgHighInitial.backoff_factor ^ 0)
          cfgHighInitial.max_retry_delay) := by
  refine ⟨rfl, ?_⟩
  intro hcontra
  rw [show ((request_with_retry cfgHighInitial (.ok ()) (.ok ()) attemptFailBoom).sleeps)[0]?
      = some (100 : ℚ) from rfl] at hcontra
  have h60 : min (cfgHighInitial.initial_retry_delay * cfgHighInitial.backoff_factor ^ 0)
      cfgHighInitial.max_retry_delay = (60 : ℚ) := by
    norm_num [cfgHighInitial]
  rw [h60] at hcontra
  exact absurd (Option.some.inj hcontra) (by norm_num)

open BrunoClient in
/-- C3 amended: provided the configuration satisfies
0 ≤ initial_retry_delay ≤ max_retry_delay and 0 ≤ backoff_factor, in a run
whose attempts all fail with transport errors the delay slept after failed
attempt k (k < max_retries, the attempts that are retried) equals
min(initial_retry_delay * backoff_factor^k, max_retry_delay). -/
theorem c3_amended_backoff_formula (cfg : Config) (fa : Except String Unit)
    (attempt : Nat → AttemptOutcome) (k : Nat)
    (hfail : ∀ i, ∃ e, attempt i = .calledProcessError e)
    (hI0 : 0 ≤ cfg.initial_retry_delay)
    (hIM : cfg.initial_retry_delay ≤ cfg.max_retry_delay)
    (hF0 : 0 ≤ cfg.backoff_factor)
    (hk : k < cfg.max_retries) :
    ((request_with_retry cfg (.ok ()) fa attempt).sleeps)[k]?
      = some (min (cfg.initial_retry_delay * cfg.backoff_factor ^ k) cfg.max_retry_delay) := by
  have h := request_loop_all_fail cfg attempt fa hfail (cfg.max_retries + 1) 0
    cfg.initial_retry_delay [] 0 0 (by omega)
  have hsl := h.2.2.1
  simp only [request_with_retry]
  rw [hsl]
  simp only [List.nil_append, Nat.add_sub_cancel]
  rw [sleepsFrom_getElem cfg cfg.max_retries cfg.initial_retry_delay k hk,
    backoff_iterate_eq cfg hI0 hIM hF0 k]

open BrunoClient in
/-- Witness for C3 amended at the default configuration (initial 1, factor 2,
cap 60): the delay slept after failed attempt 1 is min(1 * 2^1, 60) = 2. -/
theorem c3_witness :
    ((request_with_retry cfgDefault (.ok ()) (.ok ()) attemptFailBoom).sleeps)[1]?
      = some (min (cfgDefault.initial_retry_delay * cfgDefault.backoff_factor ^ 1)
          cfgDefault.max_retry_delay) ∧
    min (cfgDefault.initial_retry_delay * cfgDefault.backoff_factor ^ 1)
        cfgDefault.max_retry_delay = 2 := by
  constructor
  · exact c3_amended_backoff_formula cfgDefault (.ok ()) attemptFailBoom 1
      (fun _ => ⟨"boom", rfl⟩) (by norm_num [cfgDefault]) (by norm_num [cfgDefault])
      (by norm_num [cfgDefault]) (by norm_num [cfgDefault])
  · norm_num [cfgDefault]

open BrunoClient in
/-- C9 counterexample: the claim quantifies over every retry configuration,
but with initial delay 70 above the cap 60 the slept delays are [70, 60]:
the sequence decreases (not monotonically non-decreasing) and its first
element exceeds the configured maximum delay. -/
theorem c9_counterexample :
    (request_with_retry cfgUncapped (.ok ()) (.ok ()) attemptFailBoom).sleeps = [70, 60] ∧
    ¬ (request_with_retry cfgUncapped (.ok ()) (.ok ()) attemptFailBoom).sleeps.Sorted
        (· ≤ ·) := by
  have h := request_loop_all_fail cfgUncapped attemptFailBoom (.ok ())
    (fun _ => ⟨"boom", rfl⟩) (cfgUncapped.max_retries + 1) 0
    cfgUncapped.initial_retry_delay [] 0 0 (by omega)
  have hsl : (request_with_retry cfgUncapped (.ok ()) (.ok ()) attemptFailBoom).sleeps
      = [70, 60] := by
    simp only [request_with_retry]
    rw [h.2.2.1]
    simp only [List.nil_append, Nat.add_sub_cancel]
    show sleepsFrom cfgUncapped cfgUncapped.initial_retry_delay 2 = [70, 60]
    simp only [sleepsFrom, backoffStep]
    norm_num [cfgUncapped]
  refine ⟨hsl, ?_⟩
  intro hcontra
  rw [hsl] at hcontra
  have h42 := List.rel_of_sorted_cons hcontra 60 (by simp)
  norm_num at h42

open BrunoClient in
/-- C9 amended: provided backoff_factor is at least 1 and
0 ≤ initial_retry_delay ≤ max_retry_delay, then for every failure pattern the
sequence of delays actually slept in one request_with_retry call is
monotonically non-decreasing and every slept delay is at most
max_retry_delay. -/
theorem c9_amended_backoff_monotone_capped (cfg : Config)
    (ia fa : Except String Unit) (attempt : Nat → AttemptOutcome)
    (hF : 1 ≤ cfg.backoff_factor)
    (hI0 : 0 ≤ cfg.initial_retry_delay)
    (hIM : cfg.initial_retry_delay ≤ cfg.max_retry_delay) :
    (request_with_retry cfg ia fa attempt).sleeps.Sorted (· ≤ ·) ∧
    ∀ d ∈ (request_with_retry cfg ia fa attempt).sleeps, d ≤ cfg.max_retry_delay := by
  cases ia with
  | error e =>
    constructor
    · exact List.sorted_nil
    · intro d hd
      simp [request_with_retry] at hd
  | ok u =>
    simp only [request_with_retry]
    exact request_loop_sleeps_sorted cfg attempt fa hF (cfg.max_retries + 1) 0
      cfg.initial_retry_delay [] 0 0 hI0 hIM List.sorted_nil (by simp)

open BrunoClient in
/-- Witness for C9 amended at the default configuration with transport errors
on every attempt: the slept delays are sorted and capped at 60. -/
theorem c9_witness :
    (request_with_retry cfgDefault (.ok ()) (.ok ()) attemptFailBoom).sleeps.Sorted
      (· ≤ ·) ∧
    ∀ d ∈ (request_with_retry cfgDefault (.ok ()) (.ok ()) attemptFailBoom).sleeps,
      d ≤ cfgDefault.max_retry_delay :=
  c9_amended_backoff_monotone_capped cfgDefault (.ok ()) (.ok ()) attemptFailBoom
    (by norm_num [cfgDefault]) (by norm_num [cfgDefault]) (by norm_num [cfgDefault])

open BrunoClient in
/-- C8: within one request_with_retry call at most one forced credential
refresh (authenticate(force=True)) happens, whatever the outcomes; and when
the first two attempts both raise AuthenticationError (with max_retries at
least 1 so a second attempt occurs), the second authentication failure
propagates to the caller after exactly one forced refresh and two attempts. -/
theorem c8_at_most_one_forced_refresh (cfg : Config)
    (ia fa : Except String Unit) (attempt : Nat → AttemptOutcome) :
    (request_with_retry cfg ia fa attempt).refreshes ≤ 1 ∧
    (∀ e0 e1, 1 ≤ cfg.max_retries → ia = .ok () → fa = .ok () →
      attempt 0 = .authError e0 → attempt 1 = .authError e1 →
      (request_with_retry cfg ia fa attempt).outcome
          = .error (.authenticationError e1) ∧
      (request_with_retry cfg ia fa attempt).refreshes = 1 ∧
      (request_with_retry cfg ia fa attempt).invocations = 2) := by
  constructor
  · cases ia with
    | error e => simp [request_with_retry]
    | ok u =>
      simp only [request_with_retry]
      simpa using request_loop_refreshes_le cfg attempt fa (cfg.max_retries + 1) 0
        cfg.initial_retry_delay [] 0 0
  · intro e0 e1 hmax hia hfa h0 h1
    subst hia
    subst hfa
    obtain ⟨m, hm⟩ : ∃ m, cfg.max_retries = m + 1 := ⟨cfg.max_retries - 1, by omega⟩
    refine ⟨?_, ?_, ?_⟩ <;> simp [request_with_retry, hm, request_loop, h0, h1]

open BrunoClient in
/-- Witness for C8 at the default configuration with AuthenticationError on
the first two attempts: one forced refresh, then the second failure
propagates after 2 attempts. -/
theorem c8_witness :
    (request_with_retry cfgDefault (.ok ()) (.ok ()) attemptAuthTwice).refreshes ≤ 1 ∧
    (request_with_retry cfgDefault (.ok ()) (.ok ()) attemptAuthTwice).outcome
        = .error (.authenticationError "still expired") ∧
    (request_with_retry cfgDefault (.ok ()) (.ok ()) attemptAuthTwice).refreshes = 1 ∧
    (request_with_retry cfgDefault (.ok ()) (.ok ()) attemptAuthTwice).invocations = 2 := by
  refine ⟨(c8_at_most_one_forced_refresh cfgDefault (.ok ()) (.ok ()) attemptAuthTwice).1, ?_⟩
  exact (c8_at_most_one_forced_refresh cfgDefault (.ok ()) (.ok ()) attemptAuthTwice).2
    "token expired" "still expired" (by norm_num [cfgDefault]) rfl rfl rfl rfl

namespace Pagination

/-- Bound on pages fetched by the loop when max_pages = k with k ≥ 1: at most
k + 1 - page_num further fetches happen. -/
theorem paginate_go_le (fetch : Nat → FetchOutcome) (k : Nat) (hk : 1 ≤ k) :
    ∀ fuel page_num fetched acc, 1 ≤ page_num →
      (paginate_go fetch (some k) fuel page_num fetched acc).pages_fetched
        ≤ fetched + (k + 1 - page_num) := by
  intro fuel
  induction fuel with
  | zero =>
    intro page_num fetched acc _
    exact Nat.le_add_right _ _
  | succ fuel ih =>
    intro page_num fetched acc hp
    by_cases hguard : (truthyOptNat (some k) : Prop) ∧ (some k).getD 0 < page_num
    · simp only [paginate_go, if_pos hguard]
      exact Nat.le_add_right _ _
    · have hple : page_num ≤ k := by
        by_contra hc
        push_neg at hc
        exact hguard ⟨by simp [truthyOptNat]; omega, by simpa using hc⟩
      cases hA : fetch page_num with
      | calledProcessError e =>
        simp only [paginate_go, if_neg hguard, hA]
        omega
      | jsonDecodeError e =>
        simp only [paginate_go, if_neg hguard, hA]
        omega
      | ok response =>
        by_cases hcur : truthyOptStr (get_pagination_cursor response) = true
        · simp only [paginate_go, if_neg hguard, hA, hcur, if_pos]
          have := ih (page_num + 1) (fetched + 1) (acc ++ response.vpcs) (by omega)
          omega
        · simp only [paginate_go, if_neg hguard, hA, if_neg hcur]
          omega

end Pagination

open Pagination in
/-- C4 amended: for every k ≥ 1 pagination invoked with max_pages = k fetches
at most k pages, whatever the responses (in particular even when every page
carries a further continuation cursor).  For k = 0 the claim fails because 0
is falsy in Python, so max_pages = 0 disables the page limit (see the
counterexample). -/
theorem c4_amended_max_pages_bound (limit k fuel : Nat) (fetch : Nat → FetchOutcome)
    (hk : 1 ≤ k) :
    (paginate_list_vpcs limit fetch (some k) fuel).pages_fetched ≤ k := by
  have h := paginate_go_le fetch k hk fuel 1 0 [] (le_refl 1)
  simpa [paginate_list_vpcs] using h

open Pagination in
/-- C4 counterexample: the claim quantifies over every k ≥ 0, but with
max_pages = 0 (falsy in Python, hence treated as "no limit") and cursors
always present, 3 pages are fetched within 3 loop iterations, not at most 0. -/
theorem c4_counterexample :
    (paginate_list_vpcs 10 fetchAlwaysNext (some 0) 3).pages_fetched = 3 ∧
    ¬ (paginate_list_vpcs 10 fetchAlwaysNext (some 0) 3).pages_fetched ≤ 0 := by
  constructor
  · decide
  · decide

open Pagination in
/-- Witness for C4 amended: with max_pages = 2 and cursors always available,
at most 2 (in fact exactly 2) pages are fetched. -/
theorem c4_witness :
    (paginate_list_vpcs 10 fetchAlwaysNext (some 2) 30).pages_fetched ≤ 2 ∧
    (paginate_list_vpcs 10 fetchAlwaysNext (some 2) 30).pages_fetched = 2 :=
  ⟨c4_amended_max_pages_bound 10 2 30 fetchAlwaysNext (by omega), by decide⟩

namespace Pagination

/-- When pages page_num, ..., page_num + n - 1 return a truthy cursor and page
page_num + n returns a falsy one, the unlimited loop performs exactly n + 1
further fetches (item counts of the pages play no role). -/
theorem paginate_go_stops_at (fetch : Nat → FetchOutcome) :
    ∀ n fuel page_num fetched acc,
      (∀ p, page_num ≤ p → p < page_num + n → ∃ r, fetch p = .ok r ∧
        truthyOptStr (get_pagination_cursor r) = true) →
      (∃ r, fetch (page_num + n) = .ok r ∧
        truthyOptStr (get_pagination_cursor r) = false) →
      n + 1 ≤ fuel →
      (paginate_go fetch none fuel page_num fetched acc).pages_fetched = fetched + (n + 1) := by
  intro n
  induction n with
  | zero =>
    intro fuel page_num fetched acc _ hstop hfuel
    obtain ⟨f, rfl⟩ : ∃ f, fuel = f + 1 := ⟨fuel - 1, by omega⟩
    obtain ⟨r, hr, hc⟩ := hstop
    rw [Nat.add_zero] at hr
    have hguard : ¬ ((truthyOptNat none : Prop) ∧ (none : Option Nat).getD 0 < page_num) := by
      simp [truthyOptNat]
    have hcf : ¬ (truthyOptStr (get_pagination_cursor r) = true) := by simp [hc]
    simp only [paginate_go, if_neg hguard, hr, if_neg hcf]
  | succ n ih =>
    intro fuel page_num fetched acc hcur hstop hfuel
    obtain ⟨f, rfl⟩ : ∃ f, fuel = f + 1 := ⟨fuel - 1, by omega⟩
    obtain ⟨r, hr, hc⟩ := hcur page_num (le_refl _) (by omega)
    have hguard : ¬ ((truthyOptNat none : Prop) ∧ (none : Option Nat).getD 0 < page_num) := by
      simp [truthyOptNat]
    simp only [paginate_go, if_neg hguard, hr, if_pos hc]
    have harg : page_num + 1 + n = page_num + (n + 1) := by omega
    have := ih f (page_num + 1) (fetched + 1) (acc ++ r.vpcs)
      (fun p hp1 hp2 => hcur p (by omega) (by omega))
      (by rw [harg]; exact hstop) (by omega)
    rw [this]
    omega

end Pagination

open Pagination in
/-- C7: pagination (with no page limit) terminates as soon as a response
yields no continuation cursor: if pages 1, ..., j-1 all return cursors and
page j returns none, exactly j pages are fetched, whatever the item lists of
the responses (in particular when the final page holds exactly `limit`
items); the item count never influences termination. -/
theorem c7_no_cursor_terminates (limit : Nat) (fetch : Nat → FetchOutcome)
    (j fuel : Nat) (hj : 1 ≤ j)
    (hcur : ∀ p, 1 ≤ p → p < j → ∃ r, fetch p = .ok r ∧
      truthyOptStr (get_pagination_cursor r) = true)
    (hstop : ∃ r, fetch j = .ok r ∧ get_pagination_cursor r = none)
    (hfuel : j ≤ fuel) :
    (paginate_list_vpcs limit fetch none fuel).pages_fetched = j := by
  obtain ⟨r, hr, hc⟩ := hstop
  have h := paginate_go_stops_at fetch (j - 1) fuel 1 0 []
    (fun p hp1 hp2 => hcur p hp1 (by omega))
    (⟨r, by rw [show 1 + (j - 1) = j from by omega]; exact ⟨hr, by rw [hc]; rfl⟩⟩)
    (by omega)
  rw [paginate_list_vpcs, h]
  omega

open Pagination in
/-- Witness for C7: page 1 carries a cursor, page 2 holds exactly 10 = limit
items and no next object; exactly 2 pages are fetched. -/
theorem c7_witness :
    (paginate_list_vpcs 10 fetchTwoPages none 5).pages_fetched = 2 := by
  refine c7_no_cursor_terminates 10 fetchTwoPages 2 5 (by omega) ?_ ?_ (by omega)
  · intro p hp1 hp2
    have hp : p = 1 := by omega
    subst hp
    exact ⟨pageWithNext, rfl, by decide⟩
  · exact ⟨pageFullLast, rfl, by decide⟩

namespace VPCWorkflow

/-- A step outcome is successful exactly when it is the ok case. -/
theorem isOk_iff (oc : StepOutcome) : oc.isOk = true ↔ ∃ r, oc = .ok r := by
  cases oc <;> simp [StepOutcome.isOk]

/-- A failing outcome marks the step failed, leaves the captured identifiers
alone and returns False. -/
theorem execute_step_fail_fields (ids : Ids) (step : WorkflowStep) (oc : StepOutcome)
    (h : oc.isOk = false) :
    (execute_step ids step oc).1.status = "failed" ∧
    (execute_step ids step oc).2.1 = ids ∧
    (execute_step ids step oc).2.2 = false := by
  cases oc with
  | ok r => simp [StepOutcome.isOk] at h
  | calledProcessError e => exact ⟨rfl, rfl, rfl⟩
  | exc m => exact ⟨rfl, rfl, rfl⟩

/-- A successful outcome marks the step completed and returns True, in every
extraction branch. -/
theorem execute_step_ok_fields (ids : Ids) (step : WorkflowStep) (r : Json) :
    (execute_step ids step (.ok r)).1.status = "completed" ∧
    (execute_step ids step (.ok r)).2.2 = true := by
  rcases hk : step.extract_id_key with _ | key
  · simp [execute_step, hk]
  · rcases he : _extract_value r key with _ | eid
    · simp [execute_step, hk, he]
    · by_cases h0 : eid = "" <;> simp [execute_step, hk, he, h0]

/-- Profile of the execution loop around the first failing step: with `pre`
succeeding steps, then a failing one, then `post`, the final statuses are the
accumulator statuses, then completed for each of `pre`, failed once, and the
untouched statuses of `post`; the loop returns False having executed
pre.length + 1 further steps. -/
theorem execute_go_fail_profile (invoke : Nat → StepOutcome) (bad : WorkflowStep)
    (post : List WorkflowStep) :
    ∀ (pre : List WorkflowStep) (k : Nat) (ids : Ids) (done : List WorkflowStep) (inv : Nat),
      (∀ j, j < pre.length → (invoke (k + j)).isOk = true) →
      (invoke (k + pre.length)).isOk = false →
      ((execute_go invoke (pre ++ bad :: post) k ids done inv).1.map (fun s => s.status)
        = done.map (fun s => s.status) ++ (List.replicate pre.length "completed"
            ++ "failed" :: post.map (fun s => s.status))) ∧
      (execute_go invoke (pre ++ bad :: post) k ids done inv).2.2.1 = false ∧
      (execute_go invoke (pre ++ bad :: post) k ids done inv).2.2.2 = inv + pre.length + 1 := by
  intro pre
  induction pre with
  | nil =>
    intro k ids done inv _ hfail
    rcases hE : execute_step ids bad (invoke k) with ⟨s2, ids2, ok⟩
    have hff := execute_step_fail_fields ids bad (invoke k) (by simpa using hfail)
    rw [hE] at hff
    obtain ⟨hs, _, hok⟩ := hff
    simp only at hs hok
    subst hok
    refine ⟨?_, ?_, ?_⟩ <;> simp [execute_go, hE, hs]
  | cons s pre ih =>
    intro k ids done inv hok hfail
    have h0 : (invoke k).isOk = true := by simpa using hok 0 (by simp)
    obtain ⟨r, hr⟩ := (isOk_iff _).1 h0
    rcases hE : execute_step ids s (invoke k) with ⟨s2, ids2, ok⟩
    have hof := execute_step_ok_fields ids s r
    rw [← hr, hE] at hof
    obtain ⟨hs2, hok2⟩ := hof
    simp only at hs2 hok2
    subst hok2
    simp only [List.cons_append, execute_go, hE, if_pos, List.append_eq]
    have ihh := ih (k + 1) ids2 (done ++ [s2]) (inv + 1)
      (fun j hj => by
        have := hok (j + 1) (by simpa using Nat.succ_lt_succ hj)
        simpa [Nat.add_assoc, Nat.add_comm 1 j] using this)
      (by
        have harg : k + (pre.length + 1) = k + 1 + pre.length := by omega
        rw [← harg]
        simpa using hfail)
    obtain ⟨ihm, ihf, ihi⟩ := ihh
    refine ⟨?_, ihf, by rw [ihi, List.length_cons]; omega⟩
    rw [ihm]
    simp [hs2, List.replicate_succ]

/-- Every step in the list built before the precondition checks starts
pending. -/
theorem steps_before_check_pending (cfg : Config) :
    ∀ s ∈ steps_before_check cfg, s.status = "pending" := by
  intro s hs
  simp only [steps_before_check, List.mem_cons, List.mem_singleton,
    List.not_mem_nil, or_false] at hs
  rcases hs with rfl | rfl | rfl | rfl | rfl | rfl | rfl <;> rfl

/-- Every step built by _build_steps starts pending. -/
theorem build_steps_pending (cfg : Config) :
    ∀ s ∈ (_build_steps cfg).1, s.status = "pending" := by
  have h7 := steps_before_check_pending cfg
  intro s hs
  unfold _build_steps at hs
  by_cases h1 : ¬ truthyOptStr cfg.image_id
  · rw [if_pos h1] at hs
    exact h7 s hs
  · rw [if_neg h1] at hs
    by_cases h2 : ¬ truthyOptStr cfg.ssh_key_id
    · rw [if_pos h2] at hs
      exact h7 s hs
    · rw [if_neg h2] at hs
      by_cases h3 : cfg.create_floating_ip
      · rw [if_pos h3] at hs
        simp only [List.mem_append, List.mem_cons, List.mem_singleton,
          List.not_mem_nil, or_false] at hs
        rcases hs with hs | hs | hs
        · exact h7 s hs
        · subst hs; rfl
        · subst hs; rfl
      · rw [if_neg h3] at hs
        simp only [List.mem_append, List.mem_singleton] at hs
        rcases hs with hs | hs
        · exact h7 s hs
        · subst hs; rfl

/-- Mapping a function constant on a list gives a replicate. -/
theorem map_eq_replicate_of_forall {α : Type} (f : α → String) (c : String) :
    ∀ l : List α, (∀ x ∈ l, f x = c) → l.map f = List.replicate l.length c := by
  intro l
  induction l with
  | nil => intro _; rfl
  | cons a l ih =>
    intro h
    simp only [List.map_cons, List.length_cons, List.replicate_succ]
    rw [h a (by simp), ih (fun x hx => h x (by simp [hx]))]

end VPCWorkflow

open VPCWorkflow in
/-- C1: workflow failure is terminal.  When building succeeds and the 0-based
step i is the first to fail (every earlier step succeeds), the workflow status
is "failed", execute returns False, exactly i + 1 steps were executed, and the
summary statuses list the i steps before the failure as completed, step i as
failed, and every later step still pending (never run). -/
theorem c1_step_failure_is_terminal (cfg : Config) (invoke : Nat → StepOutcome) (i : Nat)
    (hbuild : (_build_steps cfg).2 = none)
    (hi : i < (_build_steps cfg).1.length)
    (hpre : ∀ j, j < i → (invoke j).isOk = true)
    (hfail : (invoke i).isOk = false) :
    (execute cfg invoke).workflow_status = "failed" ∧
    (execute cfg invoke).success = false ∧
    (execute cfg invoke).invocations = i + 1 ∧
    (execute cfg invoke).steps.map (fun s => s.status)
      = List.replicate i "completed" ++ "failed"
          :: List.replicate ((_build_steps cfg).1.length - (i + 1)) "pending" := by
  have hpair : _build_steps cfg = ((_build_steps cfg).1, none) := by
    rw [← hbuild]
  have hdecomp : (_build_steps cfg).1
      = (_build_steps cfg).1.take i
        ++ (_build_steps cfg).1[i] :: (_build_steps cfg).1.drop (i + 1) := by
    conv_lhs => rw [← List.take_append_drop i (_build_steps cfg).1]
    rw [List.drop_eq_getElem_cons hi]
  have hlen : ((_build_steps cfg).1.take i).length = i := by
    rw [List.length_take]
    omega
  have hprof := execute_go_fail_profile invoke (_build_steps cfg).1[i]
    ((_build_steps cfg).1.drop (i + 1)) ((_build_steps cfg).1.take i) 0 {} [] 0
    (fun j hj => by
      rw [hlen] at hj
      simpa using hpre j hj)
    (by rw [hlen]; simpa using hfail)
  rw [← hdecomp] at hprof
  obtain ⟨hm, hf, hv⟩ := hprof
  rcases hE : execute_go invoke (_build_steps cfg).1 0 {} [] 0 with ⟨steps1, ids1, ok, inv⟩
  rw [hE] at hm hf hv
  simp only at hm hf hv
  subst hf
  have hexec : execute cfg invoke
      = { steps := steps1, ids := ids1, workflow_status := "failed",
          success := false, invocations := inv } := by
    rw [execute.eq_def, hpair]
    simp only [hE]
    rfl
  have hdrop : ((_build_steps cfg).1.drop (i + 1)).map (fun s => s.status)
      = List.replicate ((_build_steps cfg).1.length - (i + 1)) "pending" := by
    rw [map_eq_replicate_of_forall (fun s => s.status) "pending" _
      (fun x hx => build_steps_pending cfg x (List.drop_subset _ _ hx))]
    rw [List.length_drop]
  refine ⟨by rw [hexec], by rw [hexec], ?_, ?_⟩
  · rw [hexec]
    simp only
    rw [hv, hlen]
    omega
  · rw [hexec]
    simp only
    rw [hm, hlen, hdrop]
    simp

open VPCWorkflow in
/-- Witness for C1: in the 9-step demo workflow whose third step (index 2)
fails, steps 1-2 complete, step 3 fails, steps 4-9 stay pending, and the
workflow ends failed after 3 executed steps. -/
theorem c1_witness :
    (execute cfgWf invokeFailAt2).workflow_status = "failed" ∧
    (execute cfgWf invokeFailAt2).success = false ∧
    (execute cfgWf invokeFailAt2).invocations = 3 ∧
    (execute cfgWf invokeFailAt2).steps.map (fun s => s.status)
      = ["completed", "completed", "failed", "pending", "pending", "pending",
         "pending", "pending", "pending"] := by
  obtain ⟨h1, h2, h3, h4⟩ := c1_step_failure_is_terminal cfgWf invokeFailAt2 2
    (by decide) (by decide) (by decide) (by decide)
  refine ⟨h1, h2, h3, ?_⟩
  rw [h4]
  rfl

open VPCWorkflow in
/-- C5: when the workflow configuration lacks image_id or ssh_key_id,
_build_steps raises before the instance step is appended, execute catches the
ValueError, the workflow status becomes "failed", and no step is ever
executed: zero external commands are invoked and every step is still
pending. -/
theorem c5_missing_config_fails_before_steps (cfg : Config) (invoke : Nat → StepOutcome)
    (h : cfg.image_id = none ∨ cfg.ssh_key_id = none) :
    (execute cfg invoke).workflow_status = "failed" ∧
    (execute cfg invoke).success = false ∧
    (execute cfg invoke).invocations = 0 ∧
    ∀ s ∈ (execute cfg invoke).steps, s.status = "pending" := by
  have herr : ∃ m, _build_steps cfg = (steps_before_check cfg, some m) := by
    rcases h with h | h
    · rw [_build_steps.eq_def, h]
      rw [if_pos (by simp [truthyOptStr])]
      exact ⟨_, rfl⟩
    · by_cases himg : ¬ truthyOptStr cfg.image_id
      · rw [_build_steps.eq_def]
        rw [if_pos himg]
        exact ⟨_, rfl⟩
      · rw [_build_steps.eq_def]
        rw [if_neg himg, if_pos (by rw [h]; simp [truthyOptStr])]
        exact ⟨_, rfl⟩
  obtain ⟨m, hm⟩ := herr
  have hexec : execute cfg invoke
      = { steps := steps_before_check cfg, ids := {}, workflow_status := "failed",
          success := false, invocations := 0 } := by
    rw [execute.eq_def, hm]
  refine ⟨by rw [hexec], by rw [hexec], by rw [hexec], ?_⟩
  rw [hexec]
  exact steps_before_check_pending cfg

open VPCWorkflow in
/-- Witness for C5: the demo configuration without an image_id fails with all
seven built steps pending and no invocation. -/
theorem c5_witness :
    (execute cfgWfNoImage invokeAllOk).workflow_status = "failed" ∧
    (execute cfgWfNoImage invokeAllOk).success = false ∧
    (execute cfgWfNoImage invokeAllOk).invocations = 0 ∧
    ∀ s ∈ (execute cfgWfNoImage invokeAllOk).steps, s.status = "pending" :=
  c5_missing_config_fails_before_steps cfgWfNoImage invokeAllOk (Or.inl rfl)

open VPCWorkflow in
/-- C6: placeholder resolution is flat equality substitution.  The resolved
map has exactly the keys of the input, in order, each value resolved
independently; a value equal to a known placeholder token whose identifier
was captured (truthy) resolves to that identifier; a token whose identifier
was not captured, and any non-token value, pass through unchanged. -/
theorem c6_placeholder_resolution (ids : Ids) (env_vars : List (String × String)) :
    (_resolve_placeholders ids env_vars).map Prod.fst = env_vars.map Prod.fst ∧
    _resolve_placeholders ids env_vars
      = env_vars.map (fun kv => (kv.1, resolve_one ids kv.2)) ∧
    (∀ s, ids.vpc_id = some s → s ≠ "" → resolve_one ids "${vpc_id}" = s) ∧
    (∀ s, ids.subnet_id = some s → s ≠ "" → resolve_one ids "${subnet_id}" = s) ∧
    (∀ s, ids.sg_id = some s → s ≠ "" → resolve_one ids "${sg_id}" = s) ∧
    (∀ s, ids.instance_id = some s → s ≠ "" → resolve_one ids "${instance_id}" = s) ∧
    (truthyOptStr ids.vpc_id = false → resolve_one ids "${vpc_id}" = "${vpc_id}") ∧
    (truthyOptStr ids.subnet_id = false → resolve_one ids "${subnet_id}" = "${subnet_id}") ∧
    (truthyOptStr ids.sg_id = false → resolve_one ids "${sg_id}" = "${sg_id}") ∧
    (truthyOptStr ids.instance_id = false →
      resolve_one ids "${instance_id}" = "${instance_id}") ∧
    (∀ v, v ≠ "${vpc_id}" → v ≠ "${subnet_id}" → v ≠ "${sg_id}" → v ≠ "${instance_id}" →
      resolve_one ids v = v) := by
  refine ⟨?_, rfl, ?_, ?_, ?_, ?_, ?_, ?_, ?_, ?_, ?_⟩
  · rw [_resolve_placeholders, List.map_map]
    rfl
  · intro s hv hs
    simp [resolve_one, truthyOptStr, hv, hs]
  · intro s hv hs
    simp [resolve_one, truthyOptStr, hv, hs]
  · intro s hv hs
    simp [resolve_one, truthyOptStr, hv, hs]
  · intro s hv hs
    simp [resolve_one, truthyOptStr, hv, hs]
  · intro hf
    simp [resolve_one, hf]
  · intro hf
    simp [resolve_one, hf]
  · intro hf
    simp [resolve_one, hf]
  · intro hf
    simp [resolve_one, hf]
  · intro v h1 h2 h3 h4
    simp [resolve_one, h1, h2, h3, h4]

open VPCWorkflow in
/-- Witness for C6: with only the VPC identifier captured, the vpc placeholder
resolves, the subnet placeholder passes through unresolved, the plain value is
unchanged, and the keys are preserved. -/
theorem c6_witness :
    (_resolve_placeholders idsVpcOnly envPlaceholders).map Prod.fst
      = envPlaceholders.map Prod.fst ∧
    resolve_one idsVpcOnly "${vpc_id}" = "r006-vpc" ∧
    resolve_one idsVpcOnly "${subnet_id}" = "${subnet_id}" ∧
    resolve_one idsVpcOnly "hello" = "hello" := by
  obtain ⟨h1, _, h3, _, _, _, _, h8, _, _, h11⟩ :=
    c6_placeholder_resolution idsVpcOnly envPlaceholders
  exact ⟨h1, h3 "r006-vpc" rfl (by decide), h8 (by decide), h11 "hello" (by decide)
    (by decide) (by decide) (by decide)⟩

open VPCWorkflow in
/-- C10: identifier-extraction failure is not a step failure.  When the
invocation and parse succeed but the dot-path walk finds no value, the lookup
returns None (no exception), the step is still completed with no extracted
identifier, the captured identifiers are untouched, execute_step returns True,
and the execution loop proceeds to the next step. -/
theorem c10_extraction_failure_not_step_failure (ids : Ids) (step : WorkflowStep)
    (resp : Json) (key : String) (invoke : Nat → StepOutcome)
    (rest : List WorkflowStep) (k : Nat) (done : List WorkflowStep) (inv : Nat)
    (hkey : step.extract_id_key = some key)
    (hwalk : extract_walk resp (pySplit key ".") = none)
    (hext : step.extracted_id = none)
    (hinv : invoke k = .ok resp) :
    _extract_value resp key = none ∧
    (execute_step ids step (.ok resp)).1.status = "completed" ∧
    (execute_step ids step (.ok resp)).1.extracted_id = none ∧
    (execute_step ids step (.ok resp)).2.1 = ids ∧
    (execute_step ids step (.ok resp)).2.2 = true ∧
    execute_go invoke (step :: rest) k ids done inv
      = execute_go invoke rest (k + 1) ids
          (done ++ [(execute_step ids step (.ok resp)).1]) (inv + 1) := by
  have hev : _extract_value resp key = none := by
    rw [_extract_value.eq_def, hwalk]
  have hstep : execute_step ids step (.ok resp)
      = ({ step with result := some resp, status := "completed" }, ids, true) := by
    rw [execute_step.eq_def, hkey]
    simp only [hev]
  refine ⟨hev, by rw [hstep], ?_, by rw [hstep], by rw [hstep], ?_⟩
  · rw [hstep]
    exact hext
  · simp only [execute_go]
    rw [hinv, hstep]
    simp

open VPCWorkflow in
/-- Witness for C10: a create_vpc step receiving a response without an id
completes anyway, captures nothing, and the loop moves on. -/
theorem c10_witness :
    _extract_value respNoId "id" = none ∧
    (execute_step idsEmpty stepC10 (.ok respNoId)).1.status = "completed" ∧
    (execute_step idsEmpty stepC10 (.ok respNoId)).1.extracted_id = none ∧
    (execute_step idsEmpty stepC10 (.ok respNoId)).2.1 = idsEmpty ∧
    (execute_step idsEmpty stepC10 (.ok respNoId)).2.2 = true ∧
    execute_go invokeAllNoId (stepC10 :: [step_add_http_rule]) 0 idsEmpty [] 0
      = execute_go invokeAllNoId [step_add_http_rule] (0 + 1) idsEmpty
          ([] ++ [(execute_step idsEmpty stepC10 (.ok respNoId)).1]) (0 + 1) :=
  c10_extraction_failure_not_step_failure idsEmpty stepC10 respNoId "id" invokeAllNoId
    [step_add_http_rule] 0 [] 0 rfl rfl rfl rfl
